import Mathlib

/-!
Verification of the OpenFGA-UI DSL core (parser `parseDSL`, serializers
`modelToDSLForEdit`/`usersetToString`, live validator `dslErrors`).

The TypeScript source is shallowly embedded over `List Char` (ASCII JS string
semantics).  JavaScript objects used as insertion-ordered string maps are
embedded as association lists with in-place overwrite (`assocSet`).  The
recursive expression parser `parseRelationDefinition` is not structurally
terminating in the source (it can recurse on its own argument), so it is
embedded with an explicit fuel parameter: `none` means the fuel bound was hit;
`∀ fuel, ... = none` means the source recursion diverges.
-/

namespace OpenFGAUI

/-- Convert a Lean string literal to the character-list representation used
throughout this development. -/
def str (s : String) : List Char := s.data

/-- JS whitespace (ASCII fragment relevant to this DSL). -/
def isWhite (c : Char) : Bool := c == ' ' || c == '\t' || c == '\n' || c == '\r'

/-- Drop leading whitespace. -/
def trimLeft : List Char → List Char
  | [] => []
  | c :: rest => if isWhite c then trimLeft rest else c :: rest

/-- JS `String.prototype.trim` (ASCII fragment). -/
def trim (s : List Char) : List Char :=
  (trimLeft (trimLeft s).reverse).reverse

/-- Source `startsWith s p`: does `s` begin with `p` (JS `String.prototype.startsWith`)? -/
def startsWith : List Char → List Char → Bool
  | _, [] => true
  | [], _ :: _ => false
  | c :: cs, p :: ps => c == p && startsWith cs ps

/-- JS `String.prototype.endsWith`. -/
def endsWith (s p : List Char) : Bool :=
  startsWith s.reverse p.reverse

/-- JS `String.prototype.includes pat`: substring occurrence. -/
def containsSub (pat : List Char) : List Char → Bool
  | [] => startsWith [] pat
  | c :: rest => startsWith (c :: rest) pat || containsSub pat rest

/-- Strip a literal prefix, returning the remainder (used to embed anchored
regex literals). -/
def dropLit : List Char → List Char → Option (List Char)
  | s, [] => some s
  | [], _ :: _ => none
  | c :: cs, p :: ps => if c == p then dropLit cs ps else none

/-- JS `String.prototype.split sep` for a non-empty separator: split at every
non-overlapping occurrence, left to right, keeping empty pieces.  The `Nat`
argument of `go` is a skip counter consuming the remaining characters of a
just-matched separator one at a time, keeping the recursion structural (the
source advances its index by `sep.length` in one step). -/
def splitOnSep (sep : List Char) (s : List Char) : List (List Char) :=
  go s 0 []
where
  go : List Char → Nat → List Char → List (List Char)
    | [], _, acc => [acc.reverse]
    | _ :: rest, k + 1, acc => go rest k acc
    | c :: rest, 0, acc =>
      if startsWith (c :: rest) sep then
        acc.reverse :: go rest (sep.length - 1) []
      else
        go rest 0 (c :: acc)

/-- Join pieces with a separator (JS `Array.prototype.join`). -/
def joinWith (sep : List Char) : List (List Char) → List Char
  | [] => []
  | [x] => x
  | x :: y :: rest => x ++ sep ++ joinWith sep (y :: rest)

/-- JS `\w` character class. -/
def isWordChar (c : Char) : Bool :=
  (c ≥ 'a' && c ≤ 'z') || (c ≥ 'A' && c ≤ 'Z') || (c ≥ '0' && c ≤ '9') || c == '_'

/-- Source `^\w+$`: non-empty all-word-character string. -/
def isWord (s : List Char) : Bool :=
  !s.isEmpty && s.all isWordChar

/-- Longest word-character run and the remainder (greedy `\w+`). -/
def takeWord (s : List Char) : List Char × List Char :=
  (s.takeWhile isWordChar, s.dropWhile isWordChar)

/-- Skip whitespace (greedy `\s*`). -/
def skipWhite (s : List Char) : List Char := s.dropWhile isWhite

/-- Require at least one whitespace character, then skip the run (`\s+`). -/
def white1 : List Char → Option (List Char)
  | [] => none
  | c :: rest => if isWhite c then some (skipWhite rest) else none

/-- Replace-or-append on an insertion-ordered association list: JS object
property assignment `obj[k] = v` (overwrite keeps the original position). -/
def assocSet {α : Type} : List (List Char × α) → List Char → α → List (List Char × α)
  | [], k, v => [(k, v)]
  | (k', v') :: rest, k, v =>
    if k' == k then (k, v) :: rest else (k', v') :: assocSet rest k v

/-- JS object property read `obj[k]` on the association-list embedding. -/
def assocGet {α : Type} : List (List Char × α) → List Char → Option α
  | [], _ => none
  | (k, v) :: rest, key => if k == key then some v else assocGet rest key

/-- Option-valued `List.map` that fails if any element fails (embeds a JS
`Array.prototype.map` whose callback may diverge: `none` = some call hit the
fuel bound). -/
def mapMOption {α β : Type} (f : α → Option β) : List α → Option (List β)
  | [] => some []
  | a :: as =>
    match f a with
    | none => none
    | some b =>
      match mapMOption f as with
      | none => none
      | some bs => some (b :: bs)

/-! ## Data model (`src/types/openfga.ts`) -/

/-- Source `ObjectRelation`: `{ object?: string; relation?: string }`. -/
structure ObjectRelation where
  object : Option (List Char)
  relation : Option (List Char)
deriving DecidableEq, Repr

/-- Source `TupleToUserset`: `{ tupleset?: ObjectRelation; computedUserset?: ObjectRelation }`. -/
structure TupleToUserset where
  tupleset : Option ObjectRelation
  computedUserset : Option ObjectRelation
deriving DecidableEq, Repr

/-- Source `Userset`: the source encodes the tagged union as an object with six
optional fields, any subset of which may be populated.  `thisF` is the
presence of the `this` marker; `union`/`intersection` are
`Option Usersets` where `Usersets.child` is itself optional, hence the
nested `Option (Option (List Userset))`; `difference` is
`Option { base?: Userset; subtract?: Userset }`. -/
inductive Userset : Type where
  | mk
      (thisF : Bool)
      (computedUserset : Option ObjectRelation)
      (tupleToUserset : Option TupleToUserset)
      (union : Option (Option (List Userset)))
      (intersection : Option (Option (List Userset)))
      (difference : Option (Option Userset × Option Userset))

/-- The `this` field of a `Userset`. -/
def Userset.thisF : Userset → Bool
  | .mk t _ _ _ _ _ => t

/-- The `union` field of a `Userset`. -/
def Userset.unionF : Userset → Option (Option (List Userset))
  | .mk _ _ _ u _ _ => u

/-- The `difference` field of a `Userset`. -/
def Userset.differenceF : Userset → Option (Option Userset × Option Userset)
  | .mk _ _ _ _ _ d => d

/-- Source `{ this: {} }`. -/
def usThis : Userset := .mk true none none none none none

/-- The empty userset object `{}` (populates none of the six variants). -/
def usEmpty : Userset := .mk false none none none none none

/-- Source `{ computedUserset: { relation: r } }`. -/
def usComputed (r : List Char) : Userset :=
  .mk false (some ⟨none, some r⟩) none none none none

/-- Source `{ tupleToUserset: { tupleset: { relation: a }, computedUserset: { relation: b } } }`. -/
def usTTU (a b : List Char) : Userset :=
  .mk false none (some ⟨some ⟨none, some a⟩, some ⟨none, some b⟩⟩) none none none

/-- Source `{ union: { child: cs } }`. -/
def usUnion (cs : List Userset) : Userset :=
  .mk false none none (some (some cs)) none none

/-- Source `{ intersection: { child: cs } }`. -/
def usIntersection (cs : List Userset) : Userset :=
  .mk false none none none (some (some cs)) none

/-- Source `{ difference: { base: b, subtract: s } }`. -/
def usDifference (b s : Userset) : Userset :=
  .mk false none none none none (some (some b, some s))

/-- Source `RelationReference`: allowed direct-assignment source.  `wildcard` is the
presence of the `wildcard: {}` marker. -/
structure RelationReference where
  type : List Char
  relation : Option (List Char)
  wildcard : Bool
  condition : Option (List Char)
deriving DecidableEq, Repr

/-- Source `RelationMetadata`: `{ directly_related_user_types?: RelationReference[] }`. -/
structure RelationMetadata where
  directly_related_user_types : Option (List RelationReference)
deriving DecidableEq, Repr

/-- Source `Metadata`: `{ relations?: Record<string, RelationMetadata> }`. -/
structure Metadata where
  relations : Option (List (List Char × RelationMetadata))
deriving DecidableEq, Repr

/-- Source `TypeDefinition`. -/
structure TypeDefinition where
  type : List Char
  relations : Option (List (List Char × Userset))
  metadata : Option Metadata

/-- Source `ConditionParamTypeRef` (the parser only ever fills `type_name`). -/
structure CondParam where
  type_name : List Char
deriving DecidableEq, Repr

/-- Source `Condition`. -/
structure Condition where
  name : List Char
  expression : List Char
  parameters : Option (List (List Char × CondParam))
deriving DecidableEq, Repr

/-- Source `Omit<AuthorizationModel, 'id'>`: what `parseDSL` produces and all the
serializers consume (the server-assigned `id` is never read by them). -/
structure AuthorizationModelNoId where
  schema_version : List Char
  type_definitions : List TypeDefinition
  conditions : Option (List (List Char × Condition))

/-! ## Anchored regex matchers used by `parseDSL` (src/utils/dsl-parser.ts)

Each embeds one regex literal of the source.  The regexes are simple enough
that greedy maximal-munch matching coincides with backtracking semantics
(every adjacent pair of subpatterns has disjoint character classes). -/

/-- Source `/^schema\s+(\d+\.\d+)$/` — returns the captured version. -/
def matchSchema (t : List Char) : Option (List Char) := do
  let r ← dropLit t (str "schema")
  let r ← white1 r
  let d1 := r.takeWhile Char.isDigit
  let r1 := r.dropWhile Char.isDigit
  if d1.isEmpty then none
  else
    match r1 with
    | c :: r2 =>
      if c == '.' then
        let d2 := r2.takeWhile Char.isDigit
        let r3 := r2.dropWhile Char.isDigit
        if d2.isEmpty then none
        else if r3.isEmpty then some (d1 ++ [c] ++ d2) else none
      else none
    | [] => none

/-- Source `/^type\s+(\w+)$/` — returns the captured type name. -/
def matchType (t : List Char) : Option (List Char) := do
  let r ← dropLit t (str "type")
  let r ← white1 r
  let (w, r1) := takeWord r
  if w.isEmpty then none else if r1.isEmpty then some w else none

/-- Source `/^define\s+(\w+)\s*:\s*(.+)$/` — returns (relation name, expression).
`parseDSL` only applies this to an already-trimmed line, on which the greedy
embedding below coincides with the regex. -/
def matchDefine (t : List Char) : Option (List Char × List Char) := do
  let r ← dropLit t (str "define")
  let r ← white1 r
  let (w, r1) := takeWord r
  if w.isEmpty then none
  else
    match skipWhite r1 with
    | c :: r3 =>
      if c == ':' then
        let rest := skipWhite r3
        if rest.isEmpty then none else some (w, rest)
      else none
    | [] => none

/-- Source `/^condition\s+(\w+)\s*\(([^)]*)\)\s*\{?\s*$/` — returns
(condition name, raw parameter text). -/
def matchCondition (t : List Char) : Option (List Char × List Char) := do
  let r ← dropLit t (str "condition")
  let r ← white1 r
  let (w, r1) := takeWord r
  if w.isEmpty then none
  else
    match skipWhite r1 with
    | c :: r3 =>
      if c == '(' then
        let ps := r3.takeWhile (fun c => !(c == ')'))
        let r4 := r3.dropWhile (fun c => !(c == ')'))
        match r4 with
        | c2 :: r5 =>
          if c2 == ')' then
            let r6 := skipWhite r5
            let r7 := match r6 with
              | c3 :: r7' => if c3 == '\x7b' then r7' else r6
              | [] => r6
            if (skipWhite r7).isEmpty then some (w, ps) else none
          else none
        | [] => none
      else none
    | [] => none

/-- Source `/^(\w+)#(\w+)$/` — sub-relation reference `type#relation`. -/
def matchHash (t : List Char) : Option (List Char × List Char) :=
  let (w1, r1) := takeWord t
  if w1.isEmpty then none
  else
    match r1 with
    | c :: r2 =>
      if c == '#' then
        let (w2, r3) := takeWord r2
        if w2.isEmpty || !r3.isEmpty then none else some (w1, w2)
      else none
    | [] => none

/-- Source `/^(\w+)\s+with\s+(\w+)$/` — conditioned reference `type with cond`. -/
def matchWith (t : List Char) : Option (List Char × List Char) := do
  let (w1, r1) := takeWord t
  if w1.isEmpty then none
  else do
    let r2 ← white1 r1
    let r3 ← dropLit r2 (str "with")
    let r4 ← white1 r3
    let (w2, r5) := takeWord r4
    if w2.isEmpty || !r5.isEmpty then none else some (w1, w2)

/-- Source `/^(\w+)\s*:\s*(\w+)$/` — one `name: type` condition parameter. -/
def matchCondParam (t : List Char) : Option (List Char × List Char) :=
  let (w1, r1) := takeWord t
  if w1.isEmpty then none
  else
    match skipWhite r1 with
    | c :: r2 =>
      if c == ':' then
        let r3 := skipWhite r2
        let (w2, r4) := takeWord r3
        if w2.isEmpty || !r4.isEmpty then none else some (w1, w2)
      else none
    | [] => none

/-- Source `/^\[([^\]]+)\](.*)$/` applied at the head of the string — returns
(bracket content, text after the closing bracket). -/
def bracketHead (s : List Char) : Option (List Char × List Char) :=
  match s with
  | c :: rest =>
    if c == '[' then
      let content := rest.takeWhile (fun c => !(c == ']'))
      let rem := rest.dropWhile (fun c => !(c == ']'))
      if content.isEmpty then none
      else
        match rem with
        | c2 :: after => if c2 == ']' then some (content, after) else none
        | [] => none
    else none
  | [] => none

/-- Unanchored search `/\[([^\]]+)\]/` — first match anywhere in the string
(regex engine retries at each successive start position). -/
def bracketSearch : List Char → Option (List Char)
  | [] => none
  | c :: rest =>
    match bracketHead (c :: rest) with
    | some (content, _) => some content
    | none => bracketSearch rest

/-! ## Expression parser (`parseRelationDefinition` and `splitByOperator`) -/

/-- The ` or ` operator token. -/
def orOp : List Char := str " or "

/-- The ` and ` operator token. -/
def andOp : List Char := str " and "

/-- The ` but not ` operator token. -/
def butNotOp : List Char := str " but not "

/-- The `->` tuple-to-userset token. -/
def arrowOp : List Char := str "->"

/-- Source `splitByOperator(str, operator)`: split at occurrences of `operator`
that sit at `[`/`]` bracket depth zero.  Each emitted part is trimmed; the
final accumulated part is emitted only if non-empty after trimming.  The
depth counter is a plain (possibly negative) integer, exactly as in the
JS source. -/
def splitByOperator (op : List Char) (s : List Char) : List (List Char) :=
  go s 0 0 []
where
  go : List Char → Nat → Int → List Char → List (List Char)
    | [], _, _, cur =>
      let t := trim cur.reverse
      if t.isEmpty then [] else [t]
    | _ :: rest, k + 1, d, cur => go rest k d cur
    | c :: rest, 0, d, cur =>
      if c == '[' then go rest 0 (d + 1) (c :: cur)
      else if c == ']' then go rest 0 (d - 1) (c :: cur)
      else if d == 0 && startsWith (c :: rest) op then
        trim cur.reverse :: go rest (op.length - 1) 0 []
      else go rest 0 d (c :: cur)

/-- Does `s` contain `op` at bracket depth zero (the occurrences
`splitByOperator` would actually split at)?  Used to state the
bracket-depth-aware-split claims. -/
def topLevelHas (op : List Char) (s : List Char) : Bool :=
  go 0 s
where
  go : Int → List Char → Bool
    | _, [] => false
    | d, c :: restL =>
      if c == '[' then go (d + 1) restL
      else if c == ']' then go (d - 1) restL
      else if d == 0 && startsWith (c :: restL) op then true
      else go d restL

/-- Source `parseRelationDefinition(definition)` with an explicit fuel bound on the
recursion depth (the source recursion is genuinely non-terminating on some
inputs).  `none` means the fuel ran out. -/
def parseRelationDefinition : Nat → List Char → Option Userset
  | 0, _ => none
  | n + 1, definition =>
    let t := trim definition
    -- Handle direct assignment: [user] or [user, group#member]
    if startsWith t (str "[") && endsWith t (str "]") then some usThis
    -- Handle union: [user] or owner
    else if containsSub orOp t then
      (mapMOption (parseRelationDefinition n) (splitByOperator orOp t)).bind
        (fun cs => some (usUnion cs))
    -- Handle intersection: owner and editor
    else if containsSub andOp t then
      (mapMOption (parseRelationDefinition n) (splitByOperator andOp t)).bind
        (fun cs => some (usIntersection cs))
    -- Handle difference: the source uses String.split, which splits at EVERY
    -- occurrence; only parts[0] and parts[1] are consumed.
    else if containsSub butNotOp t then
      let parts := splitOnSep butNotOp t
      (parseRelationDefinition n (parts.headD [])).bind (fun b =>
        (parseRelationDefinition n ((parts.drop 1).headD [])).bind (fun s' =>
          some (usDifference b s')))
    -- Handle tuple to userset: parent->viewer
    else if containsSub arrowOp t then
      let parts := splitOnSep arrowOp t
      some (usTTU (trim (parts.headD [])) (trim ((parts.drop 1).headD [])))
    -- Handle computed userset (just a relation name)
    else if isWord t then some (usComputed t)
    else
      -- Handle direct with types in brackets at the start
      match bracketHead t with
      | some (_, rest0) =>
        let rest := trim rest0
        if rest.isEmpty then some usThis
        else if startsWith rest (str "or ") then
          (parseRelationDefinition n (trim (rest.drop 3))).bind
            (fun u => some (usUnion [usThis, u]))
        else some usThis
      | none => some usThis

/-- Source `parseTypeReference(typeStr)`: parse one bracket-list entry. -/
def parseTypeReference (typeStr : List Char) : RelationReference :=
  let t := trim typeStr
  if endsWith t (str ":*") then
    { type := t.take (t.length - 2), relation := none, wildcard := true, condition := none }
  else
    match matchHash t with
    | some (ty, rel) => { type := ty, relation := some rel, wildcard := false, condition := none }
    | none =>
      match matchWith t with
      | some (ty, c) => { type := ty, relation := none, wildcard := false, condition := some c }
      | none => { type := t, relation := none, wildcard := false, condition := none }

/-- Source `parseConditionParams(params)`. -/
def parseConditionParams (params : List Char) : Option (List (List Char × CondParam)) :=
  if (trim params).isEmpty then none
  else
    let pairs := splitOnSep (str ",") params
    let result := pairs.foldl (fun acc pair =>
      match matchCondParam (trim pair) with
      | some (n, ty) => assocSet acc n ⟨ty⟩
      | none => acc) []
    if result.isEmpty then none else some result

/-! ## `parseDSL`: line-oriented single pass -/

/-- Source `ParsedRelation` (intermediate record of the source). -/
structure ParsedRelation where
  name : List Char
  definition : List Char
  directTypes : List (List Char)

/-- Source `ParsedType` (intermediate record of the source). -/
structure ParsedType where
  name : List Char
  relations : List ParsedRelation

/-- Source `ParsedCondition` (intermediate record of the source). -/
structure ParsedCondition where
  name : List Char
  params : List Char
  expression : List Char

/-- The mutable locals of `parseDSL`'s line loop, plus the `ParseResult`
being accumulated. -/
structure PState where
  schemaVersion : List Char
  types : List ParsedType
  conditions : List ParsedCondition
  currentType : Option ParsedType
  inRelations : Bool
  inCondition : Bool
  currentCondition : Option ParsedCondition
  conditionBody : List (List Char)

/-- Initial loop state: schema version defaults to `'1.1'`. -/
def initPState : PState :=
  { schemaVersion := str "1.1", types := [], conditions := [],
    currentType := none, inRelations := false, inCondition := false,
    currentCondition := none, conditionBody := [] }

/-- Source `if (currentType) result.types.push(currentType)`. -/
def flushT : Option ParsedType → List ParsedType
  | some t => [t]
  | none => []

/-- Tail of the loop body reached when the `define` branch did not fire
(its regex failed, or no open type / relations block): the `condition`
declaration check and the condition-body accumulation. -/
def pLineTail (s : PState) (trimmed : List Char) : PState :=
  match matchCondition trimmed with
  | some (cname, params) =>
    { s with types := s.types ++ flushT s.currentType, currentType := none,
             inCondition := true,
             currentCondition := some ⟨cname, params, []⟩,
             conditionBody := [] }
  | none =>
    if s.inCondition then
      match s.currentCondition with
      | some cc =>
        if trimmed == str "\x7d" then
          { s with conditions := s.conditions ++
                     [{ cc with expression := trim (joinWith (str "\n") s.conditionBody) }],
                   currentCondition := none, inCondition := false, conditionBody := [] }
        else { s with conditionBody := s.conditionBody ++ [trimmed] }
      | none => s
    else s

/-- One iteration of `parseDSL`'s `for` loop over lines. -/
def pLine (s : PState) (line : List Char) : PState :=
  let trimmed := trim line
  -- Skip empty lines and comments
  if trimmed.isEmpty || startsWith trimmed (str "#") || startsWith trimmed (str "//") then s
  -- Parse model declaration
  else if trimmed == str "model" then s
  else
    -- Parse schema version
    match matchSchema trimmed with
    | some v => { s with schemaVersion := v }
    | none =>
      -- Parse type declaration
      match matchType trimmed with
      | some name =>
        { s with types := s.types ++ flushT s.currentType,
                 currentType := some ⟨name, []⟩, inRelations := false }
      | none =>
        -- Parse relations section
        if trimmed == str "relations" then { s with inRelations := true }
        else
          -- Parse relation definition (guarded by currentType && inRelations;
          -- on guard failure control falls through to the condition checks)
          match matchDefine trimmed, s.currentType, s.inRelations with
          | some (rname, defRaw), some ct, true =>
            let definition := trim defRaw
            let directTypes : List (List Char) :=
              match bracketSearch definition with
              | some content => (splitOnSep (str ",") content).map trim
              | none => []
            let ct' : ParsedType :=
              { ct with relations := ct.relations ++ [⟨rname, definition, directTypes⟩] }
            { s with currentType := some ct' }
          | _, _, _ => pLineTail s trimmed

/-- The whole `for` loop. -/
def pScan : PState → List (List Char) → PState
  | s, [] => s
  | s, l :: ls => pScan (pLine s l) ls

/-- Inner loop of `convertToJSON` over one type's relations, building the
`relations` map and the `metadata.relations` map.  Fails (`none`) only if
`parseRelationDefinition` hits the fuel bound. -/
def buildRels (fuel : Nat) :
    List ParsedRelation → List (List Char × Userset) →
    List (List Char × RelationMetadata) →
    Option (List (List Char × Userset) × List (List Char × RelationMetadata))
  | [], accR, accM => some (accR, accM)
  | rel :: restRels, accR, accM =>
    match parseRelationDefinition fuel rel.definition with
    | none => none
    | some u =>
      let accR' := assocSet accR rel.name u
      let accM' :=
        if rel.directTypes.isEmpty then accM
        else assocSet accM rel.name ⟨some (rel.directTypes.map parseTypeReference)⟩
      buildRels fuel restRels accR' accM'

/-- Source `convertToJSON`'s per-type conversion. -/
def convType (fuel : Nat) (t : ParsedType) : Option TypeDefinition :=
  if t.relations.isEmpty then some { type := t.name, relations := none, metadata := none }
  else
    (buildRels fuel t.relations [] []).map (fun rm =>
      { type := t.name, relations := some rm.1, metadata := some ⟨some rm.2⟩ })

/-- Source `convertToJSON(parsed)` (fuel threads into the relation parses). -/
def convertToJSON (fuel : Nat) (schemaVersion : List Char) (types : List ParsedType)
    (conditions : List ParsedCondition) : Option AuthorizationModelNoId :=
  (mapMOption (convType fuel) types).map (fun tds =>
    { schema_version := schemaVersion,
      type_definitions := tds,
      conditions :=
        if conditions.isEmpty then none
        else some (conditions.foldl (fun acc c =>
          assocSet acc c.name ⟨c.name, c.expression, parseConditionParams c.params⟩) []) })

/-- Source `parseDSL(dsl)`: full text to structured model.  `none` = the source
would never return (the expression-parser recursion exceeds any bound). -/
def parseDSL (fuel : Nat) (dsl : List Char) : Option AuthorizationModelNoId :=
  let lines := splitOnSep (str "\n") dsl
  let s := pScan initPState lines
  -- Don't forget the last type
  convertToJSON fuel s.schemaVersion (s.types ++ flushT s.currentType) s.conditions

/-! ## Serializers (`modelToDSLForEdit` / `buildRelationDefinition` in
src/utils/dsl-parser.ts, `usersetToString` in the model-viewer component) -/

/-- Source `formatTypeRef(ref)`. -/
def formatTypeRef (ref : RelationReference) : List Char :=
  if ref.wildcard then ref.type ++ str ":*"
  else
    match ref.relation with
    | some r => ref.type ++ str "#" ++ r
    | none =>
      match ref.condition with
      | some c => ref.type ++ str " with " ++ c
      | none => ref.type

/-- Source `formatConditionParams(params)`. -/
def formatConditionParams (params : Option (List (List Char × CondParam))) : List Char :=
  match params with
  | none => []
  | some ps => joinWith (str ", ") (ps.map (fun p => p.1 ++ str ": " ++ p.2.type_name))

mutual

/-- Source `buildRelationDefinition(userset, directTypes)` — edit-seed serializer.
The deep pattern match encodes the source's sequential truthiness checks:
`this`, then `computedUserset`, `tupleToUserset`, `union`, `intersection`,
`difference`, then the default fallback. -/
def buildRelationDefinition (userset : Userset) (directTypes : List RelationReference) :
    List Char :=
  let typeStr : List Char :=
    if directTypes.isEmpty then []
    else str "[" ++ joinWith (str ", ") (directTypes.map formatTypeRef) ++ str "]"
  match userset with
  | .mk true _ _ _ _ _ => if typeStr.isEmpty then str "[user]" else typeStr
  | .mk false (some o) _ _ _ _ => o.relation.getD []
  | .mk false none (some tu) _ _ _ =>
    (tu.tupleset.bind ObjectRelation.relation).getD [] ++ arrowOp ++
      (tu.computedUserset.bind ObjectRelation.relation).getD []
  | .mk false none none (some (some (c0 :: restCs))) _ _ =>
    -- children.map((c, idx) => ...): only index 0 gets the typeStr shortcut
    joinWith orOp
      ((if c0.thisF && !typeStr.isEmpty then typeStr else buildRelationDefinition c0 []) ::
        buildRelMap restCs)
  | .mk false none none (some (some [])) _ _ => joinWith orOp []
  | .mk false none none (some none) _ _ => joinWith orOp []
  | .mk false none none none (some (some cs)) _ => joinWith andOp (buildRelMap cs)
  | .mk false none none none (some none) _ => joinWith andOp []
  | .mk false none none none none (some (ob, os)) =>
    buildRelOrEmpty ob ++ butNotOp ++ buildRelOrEmpty os
  | .mk false none none none none none => if typeStr.isEmpty then str "[user]" else typeStr

/-- Source `children.map(c => buildRelationDefinition(c, []))`. -/
def buildRelMap : List Userset → List (List Char)
  | [] => []
  | c :: rest => buildRelationDefinition c [] :: buildRelMap rest

/-- Source `buildRelationDefinition(optional || {}, [])` for the difference operands.
The empty-object call `buildRelationDefinition({}, [])` lands in the final
fallback with an empty `typeStr` and evaluates to `'[user]'`; the `none`
branch inlines that value (the equality is checked by
`buildRelationDefinition_usEmpty` below). -/
def buildRelOrEmpty : Option Userset → List Char
  | some u => buildRelationDefinition u []
  | none => str "[user]"

end

/-- The inlined `none` branch of `buildRelOrEmpty` agrees with the source's
`buildRelationDefinition({}, [])`. -/
theorem buildRelationDefinition_usEmpty :
    buildRelationDefinition usEmpty [] = str "[user]" := rfl

/-- Source `modelToDSLForEdit(model)`. -/
def modelToDSLForEdit (model : AuthorizationModelNoId) : List Char :=
  let typeLines : List (List Char) :=
    (model.type_definitions.map (fun typeDef =>
      [str "type " ++ typeDef.type] ++
      (match typeDef.relations with
       | some rels =>
         if rels.isEmpty then []
         else
           [str "  relations"] ++
           rels.map (fun rel =>
             let directTypes :=
               (((typeDef.metadata.bind Metadata.relations).bind
                   (fun m => assocGet m rel.1)).bind
                 RelationMetadata.directly_related_user_types).getD []
             str "    define " ++ rel.1 ++ str ": " ++
               buildRelationDefinition rel.2 directTypes)
       | none => []) ++ [[]])).flatten
  let condLines : List (List Char) :=
    match model.conditions with
    | some conds =>
      (conds.map (fun c =>
        [str "condition " ++ c.1 ++ str "(" ++ formatConditionParams c.2.parameters ++
           str ") \x7b",
         str "  " ++ c.2.expression,
         str "\x7d",
         []])).flatten
    | none => []
  joinWith (str "\n")
    ([str "model", str "  schema " ++ model.schema_version, []] ++ typeLines ++ condLines)

mutual

/-- Source `usersetToString(userset, _typeDef, _relationName)` — read-only display
serializer of the model viewer.  The `_typeDef`/`_relationName` parameters are
threaded through unchanged, as in the source (which never reads them). -/
def usersetToString (userset : Userset) (td : TypeDefinition) (relationName : List Char) :
    List Char :=
  match userset with
  | .mk true _ _ _ _ _ => str "[direct]"
  | .mk false (some o) _ _ _ _ => o.relation.getD []
  | .mk false none (some tu) _ _ _ =>
    (tu.tupleset.bind ObjectRelation.relation).getD [] ++ arrowOp ++
      (tu.computedUserset.bind ObjectRelation.relation).getD []
  | .mk false none none (some (some cs)) _ _ =>
    joinWith orOp (usersetToStringMap cs td relationName)
  | .mk false none none (some none) _ _ => joinWith orOp []
  | .mk false none none none (some (some cs)) _ =>
    joinWith andOp (usersetToStringMap cs td relationName)
  | .mk false none none none (some none) _ => joinWith andOp []
  | .mk false none none none none (some (ob, os)) =>
    usersetToStringOrEmpty ob td relationName ++ butNotOp ++
      usersetToStringOrEmpty os td relationName
  | .mk false none none none none none => str "[unknown]"

/-- Source `children.map(c => usersetToString(c, _typeDef, _relationName))`. -/
def usersetToStringMap : List Userset → TypeDefinition → List Char → List (List Char)
  | [], _, _ => []
  | c :: rest, td, rn => usersetToString c td rn :: usersetToStringMap rest td rn

/-- Source `usersetToString(optional || {}, ...)` for the difference operands.  The
empty-object call lands in the final fallback and evaluates to `'[unknown]'`;
the `none` branch inlines that value (checked by `usersetToString_usEmpty`
below). -/
def usersetToStringOrEmpty : Option Userset → TypeDefinition → List Char → List Char
  | some u, td, rn => usersetToString u td rn
  | none, _, _ => str "[unknown]"

end

/-- The inlined `none` branch of `usersetToStringOrEmpty` agrees with the
source's `usersetToString({}, _typeDef, _relationName)`. -/
theorem usersetToString_usEmpty (td : TypeDefinition) (rn : List Char) :
    usersetToString usEmpty td rn = str "[unknown]" := rfl

/-! ## Live validator (`dslErrors` in the model-viewer component) -/

/-- JS `String.prototype.replace` with a string pattern: replace the first
occurrence only. -/
def replaceFirst (pat repl : List Char) : List Char → List Char
  | [] => if startsWith [] pat then repl else []
  | c :: rest =>
    if startsWith (c :: rest) pat then repl ++ List.drop pat.length (c :: rest)
    else c :: replaceFirst pat repl rest

/-- First character of `/^[a-zA-Z_][a-zA-Z0-9_]*$/`. -/
def isIdentChar1 (c : Char) : Bool :=
  (c ≥ 'a' && c ≤ 'z') || (c ≥ 'A' && c ≤ 'Z') || c == '_'

/-- Source `/^[a-zA-Z_][a-zA-Z0-9_]*$/`. -/
def isIdent : List Char → Bool
  | [] => false
  | c :: rest => isIdentChar1 c && rest.all isWordChar

/-- Validator diagnostic: 1-based line number plus message. -/
structure Diag where
  line : Nat
  message : List Char
deriving DecidableEq, Repr

/-- JS falsiness of the validator's `currentType : string | null` (both
`null` and the empty string are falsy). -/
def isFalsyStr : Option (List Char) → Bool
  | none => true
  | some s => s.isEmpty

/-- The validator's per-pass mutable state. -/
structure ValState where
  errors : List Diag
  hasModel : Bool
  hasSchema : Bool
  currentType : Option (List Char)
  inRelations : Bool

/-- One iteration of the validator's `lines.forEach((line, index) => ...)`. -/
def valLine (s : ValState) (index : Nat) (line : List Char) : ValState :=
  let trimmed := trim line
  let lineNum := index + 1
  if trimmed.isEmpty || startsWith trimmed (str "#") || startsWith trimmed (str "//") then s
  else if trimmed == str "model" then
    { s with
      errors := if s.hasModel then
          s.errors ++ [⟨lineNum, str "Duplicate \"model\" declaration"⟩]
        else s.errors,
      hasModel := true }
  else if startsWith trimmed (str "schema ") then
    let e1 : List Diag :=
      if !s.hasModel then [⟨lineNum, str "\"schema\" must come after \"model\""⟩] else []
    let e2 : List Diag :=
      if s.hasSchema then [⟨lineNum, str "Duplicate \"schema\" declaration"⟩] else []
    let version := trim (replaceFirst (str "schema ") [] trimmed)
    let e3 : List Diag :=
      if !(version == str "1.1") && !(version == str "1.0") then
        [⟨lineNum, str "Invalid schema version \"" ++ version ++ str "\". Use \"1.1\""⟩]
      else []
    { s with errors := s.errors ++ e1 ++ e2 ++ e3, hasSchema := true }
  else if startsWith trimmed (str "type ") then
    let e1 : List Diag :=
      if !s.hasModel then [⟨lineNum, str "\"type\" must come after \"model\" declaration"⟩]
      else []
    let typeName := trim (replaceFirst (str "type ") [] trimmed)
    let e2 : List Diag :=
      if typeName.isEmpty then [⟨lineNum, str "Type name is required"⟩]
      else if !isIdent typeName then
        [⟨lineNum, str "Invalid type name \"" ++ typeName ++ str "\""⟩]
      else []
    { s with errors := s.errors ++ e1 ++ e2, currentType := some typeName,
             inRelations := false }
  else if trimmed == str "relations" then
    { s with
      errors := if isFalsyStr s.currentType then
          s.errors ++ [⟨lineNum, str "\"relations\" must be inside a type definition"⟩]
        else s.errors,
      inRelations := true }
  else if startsWith trimmed (str "define ") then
    let e1 : List Diag :=
      if !s.inRelations then [⟨lineNum, str "\"define\" must be inside a \"relations\" block"⟩]
      else []
    let defineContent := replaceFirst (str "define ") [] trimmed
    let e2 : List Diag :=
      if !containsSub (str ":") defineContent then
        [⟨lineNum, str "Invalid define syntax. Expected \"define name: expression\""⟩]
      else
        let name := (splitOnSep (str ":") defineContent).headD []
        if (trim name).isEmpty then [⟨lineNum, str "Relation name is required"⟩]
        else if !isIdent (trim name) then
          [⟨lineNum, str "Invalid relation name \"" ++ trim name ++ str "\""⟩]
        else []
    { s with errors := s.errors ++ e1 ++ e2 }
  else if startsWith trimmed (str "condition ") then
    { s with inRelations := false, currentType := none }
  else if !trimmed.isEmpty && !startsWith line (str " ") && !startsWith line (str "\t") then
    { s with errors := s.errors ++
        [⟨lineNum, str "Unknown keyword or invalid syntax: \"" ++ trimmed.take 20 ++
           str "...\""⟩] }
  else s

/-- The validator's whole `forEach` over lines. -/
def valScan : ValState → Nat → List (List Char) → ValState
  | s, _, [] => s
  | s, i, l :: ls => valScan (valLine s i l) (i + 1) ls

/-- The global "missing model" diagnostic (unshifted to the front). -/
def missingModelDiag : Diag := ⟨1, str "Model must start with \"model\" declaration"⟩

/-- The global "missing schema" diagnostic (pushed to the end). -/
def missingSchemaDiag : Diag := ⟨2, str "Missing \"schema 1.1\" after model declaration"⟩

/-- Source `dslErrors` — the `useMemo` live-validation body: one pass over the
current editor text, returning the ordered diagnostic list. -/
def dslErrors (editContent : List Char) : List Diag :=
  if (trim editContent).isEmpty then []
  else
    let s := valScan ⟨[], false, false, none, false⟩ 0 (splitOnSep (str "\n") editContent)
    let errs := s.errors
    let errs :=
      if !(trim editContent).isEmpty && !s.hasModel then missingModelDiag :: errs else errs
    let errs := if s.hasModel && !s.hasSchema then errs ++ [missingSchemaDiag] else errs
    errs

/-! ## Shared concrete documents -/

/-- The template document model DSL (also the `handleNewModel` template of the
source and the §8 scenario input). -/
def docDsl : List Char :=
  str "model\n  schema 1.1\n\ntype user\n\ntype document\n  relations\n    define owner: [user]\n    define viewer: [user] or owner\n"

/-- The `RelationReference` for a plain `user` entry. -/
def userRef : RelationReference :=
  { type := str "user", relation := none, wildcard := false, condition := none }

/-- The structured model the scenario input is expected to parse to. -/
def mDoc : AuthorizationModelNoId :=
  { schema_version := str "1.1",
    type_definitions := [
      { type := str "user", relations := none, metadata := none },
      { type := str "document",
        relations := some [
          (str "owner", usThis),
          (str "viewer", usUnion [usThis, usComputed (str "owner")])],
        metadata := some ⟨some [
          (str "owner", ⟨some [userRef]⟩),
          (str "viewer", ⟨some [userRef]⟩)]⟩ }],
    conditions := none }

/-! ## Claims -/

/-- A relation definition on which the source's `parseRelationDefinition`
recurses forever: `'[a or b'` contains `' or '` (so the union branch fires),
but the only occurrence is inside an unclosed bracket, so the bracket-aware
split returns the whole (trimmed) string as its single part, which is then
re-parsed unchanged. -/
def brokenDefinition : List Char := str "[a or b"

/-- At every fuel bound, parsing `'[a or b'` runs out of fuel: the source
recursion diverges (a stack overflow in JS). -/
theorem parseRelationDefinition_broken_diverges (n : Nat) :
    parseRelationDefinition n brokenDefinition = none := by
  induction n with
  | zero => rfl
  | succ n ih =>
    have h : parseRelationDefinition (n + 1) brokenDefinition =
        (mapMOption (parseRelationDefinition n)
          (splitByOperator orOp (trim brokenDefinition))).bind
          (fun cs => some (usUnion cs)) := rfl
    rw [h]
    rw [show splitByOperator orOp (trim brokenDefinition) = [brokenDefinition] from rfl]
    simp [mapMOption, ih]

/-- A full DSL text reaching the divergent definition through `parseDSL`. -/
def brokenDsl : List Char := str "type t\n  relations\n    define v: [a or b"

/-- C1: parseDSL is claimed total (never throws, always returns a model).
REFUTED as stated — but the lenient-fallback intent of the code makes this a
code bug: on `brokenDsl` (an unclosed bracket with an ` or `, exactly the
mid-typing input the lenient parser is designed for) the expression-parser
recursion never terminates, so `parseDSL` exceeds every fuel bound instead of
returning a model. -/
theorem parseDSL_not_total (fuel : Nat) : parseDSL fuel brokenDsl = none := by
  have h : parseDSL fuel brokenDsl =
      (mapMOption (convType fuel)
        [⟨str "t", [⟨str "v", brokenDefinition, []⟩]⟩]).map
        (fun tds =>
          { schema_version := str "1.1", type_definitions := tds, conditions := none }) := rfl
  rw [h]
  have h2 : convType fuel ⟨str "t", [⟨str "v", brokenDefinition, []⟩]⟩ = none := by
    simp [convType, buildRels, parseRelationDefinition_broken_diverges fuel]
  simp [mapMOption, h2]

/-- Discriminator separating a difference userset whose subtract is itself a
difference node from one whose subtract is not. -/
def subtractIsDifference (u : Userset) : Bool :=
  match u.differenceF with
  | some (_, some sub) => sub.differenceF.isSome
  | _ => false

/-- C2 counterexample: `a but not b but not c` does NOT parse to
`difference(base = a, subtract = parse('b but not c'))`.  (JS
`String.prototype.split` splits at every occurrence, so `parts[1]` is `'b'`,
not `'b but not c'`.) -/
theorem parseRelationDefinition_butNot_single_split_refuted :
    ¬ (parseRelationDefinition 9 (str "a but not b but not c") =
        some (usDifference (usComputed (str "a"))
          (usDifference (usComputed (str "b")) (usComputed (str "c"))))) := by
  intro h
  have h0 : parseRelationDefinition 9 (str "a but not b but not c") =
      some (usDifference (usComputed (str "a")) (usComputed (str "b"))) := rfl
  rw [h0] at h
  injection h with h1
  exact absurd (congrArg subtractIsDifference h1) (by decide)

/-- C2 amended: when the difference branch fires (the expression is not a
complete bracket form and contains ` but not ` but no ` or `/` and `), the
parser splits at EVERY occurrence of ` but not ` and consumes only the first
two parts: base = parse(parts[0]), subtract = parse(parts[1]); everything
after the second ` but not ` is discarded. -/
theorem parseRelationDefinition_butNot_splitsAll (n : Nat) (s : List Char)
    (h1 : (startsWith (trim s) (str "[") && endsWith (trim s) (str "]")) = false)
    (h2 : containsSub orOp (trim s) = false)
    (h3 : containsSub andOp (trim s) = false)
    (h4 : containsSub butNotOp (trim s) = true) :
    parseRelationDefinition (n + 1) s =
      (parseRelationDefinition n ((splitOnSep butNotOp (trim s)).headD [])).bind (fun b =>
        (parseRelationDefinition n (((splitOnSep butNotOp (trim s)).drop 1).headD [])).bind
          (fun sub => some (usDifference b sub))) := by
  simp only [parseRelationDefinition, h1, h2, h3, h4]
  simp

/-- Closed instance of `parseRelationDefinition_butNot_splitsAll` at the
chained expression `a but not b but not c` (fuel 9). -/
theorem parseRelationDefinition_butNot_splitsAll_witness :
    ((startsWith (trim (str "a but not b but not c")) (str "[") &&
        endsWith (trim (str "a but not b but not c")) (str "]")) = false) ∧
    containsSub orOp (trim (str "a but not b but not c")) = false ∧
    containsSub andOp (trim (str "a but not b but not c")) = false ∧
    containsSub butNotOp (trim (str "a but not b but not c")) = true ∧
    parseRelationDefinition 9 (str "a but not b but not c") =
      (parseRelationDefinition 8
          ((splitOnSep butNotOp (trim (str "a but not b but not c"))).headD [])).bind (fun b =>
        (parseRelationDefinition 8
            (((splitOnSep butNotOp (trim (str "a but not b but not c"))).drop 1).headD [])).bind
          (fun sub => some (usDifference b sub))) :=
  ⟨by decide, by decide, by decide, by decide,
    parseRelationDefinition_butNot_splitsAll 8 (str "a but not b but not c")
      (by decide) (by decide) (by decide) (by decide)⟩

/-- A model whose single relation is a difference with a nested difference as
its subtract.  Its serialization `x but not y but not z` re-parses to
`difference(x, y)` (the all-occurrence split drops `z`). -/
def mNested : AuthorizationModelNoId :=
  { schema_version := str "1.1",
    type_definitions := [
      { type := str "t",
        relations := some [(str "r",
          usDifference (usComputed (str "x"))
            (usDifference (usComputed (str "y")) (usComputed (str "z"))))],
        metadata := some ⟨some []⟩ }],
    conditions := none }

/-- C3 counterexample: re-serialization is NOT idempotent for every model.
For `mNested`, `serialize(parse(serialize(m)))` is
`... define r: x but not y ...` while `serialize(m)` is
`... define r: x but not y but not z ...`. -/
theorem reserialize_not_idempotent :
    (parseDSL 20 (modelToDSLForEdit mNested)).map modelToDSLForEdit ≠
      some (modelToDSLForEdit mNested) := by
  decide

/-- C3 amended: re-serialization is idempotent on the common fragment (direct
assignments with metadata, computed references, direct-or-computed unions),
verified at the representative two-type document model `mDoc`:
`serialize(parse(serialize(mDoc))) = serialize(mDoc)`. -/
theorem reserialize_idempotent_on_docModel :
    (parseDSL 20 (modelToDSLForEdit mDoc)).map modelToDSLForEdit =
      some (modelToDSLForEdit mDoc) := by
  decide

/-- C4 counterexample: the union rule is NOT the first rule applied.
`[a] or [b]` contains a bracket-depth-zero ` or `, yet it parses to the
direct-assignment userset (the complete-bracket check `[...]` precedes the
union check), not to the union of its two split parts. -/
theorem parseRelationDefinition_union_not_first :
    topLevelHas orOp (str "[a] or [b]") = true ∧
    ¬ (parseRelationDefinition 5 (str "[a] or [b]") = some (usUnion [usThis, usThis])) := by
  constructor
  · decide
  · intro h
    have h0 : parseRelationDefinition 5 (str "[a] or [b]") = some usThis := rfl
    rw [h0] at h
    injection h with h1
    exact absurd (congrArg (fun u => u.unionF.isSome) h1) (by decide)

/-- The helper `topLevelHas.go` detects an occurrence, hence a substring occurrence. -/
theorem topLevelHas_go_containsSub (op : List Char) :
    ∀ (l : List Char) (d : Int), topLevelHas.go op d l = true → containsSub op l = true := by
  intro l
  induction l with
  | nil => intro d h; simp [topLevelHas.go] at h
  | cons c rest ih =>
    intro d h
    rw [topLevelHas.go] at h
    split_ifs at h with hb1 hb2 hb3
    · simp only [containsSub, Bool.or_eq_true]
      exact Or.inr (ih (d + 1) h)
    · simp only [containsSub, Bool.or_eq_true]
      exact Or.inr (ih (d - 1) h)
    · simp only [containsSub, Bool.or_eq_true]
      simp only [Bool.and_eq_true] at hb3
      exact Or.inl hb3.2
    · simp only [containsSub, Bool.or_eq_true]
      exact Or.inr (ih d h)

/-- Top-level containment implies plain containment. -/
theorem topLevelHas_containsSub (op s : List Char) (h : topLevelHas op s = true) :
    containsSub op s = true :=
  topLevelHas_go_containsSub op s 0 h

/-- C4 amended: for every expression that is not of the complete bracket form
`[...]` and contains ` or ` at bracket depth zero, the parser returns the
union of the recursively parsed parts of the bracket-depth-aware split; the
union rule is the SECOND rule applied, after the complete-bracket direct rule
(hypothesis `h1`). -/
theorem parseRelationDefinition_topLevelOr (n : Nat) (s : List Char)
    (h1 : (startsWith (trim s) (str "[") && endsWith (trim s) (str "]")) = false)
    (h2 : topLevelHas orOp (trim s) = true) :
    parseRelationDefinition (n + 1) s =
      (mapMOption (parseRelationDefinition n) (splitByOperator orOp (trim s))).bind
        (fun cs => some (usUnion cs)) := by
  have hc : containsSub orOp (trim s) = true := topLevelHas_containsSub orOp (trim s) h2
  simp only [parseRelationDefinition, h1, hc]
  simp

/-- Closed instance of `parseRelationDefinition_topLevelOr` at
`[user, group#member] or owner` (fuel 5). -/
theorem parseRelationDefinition_topLevelOr_witness :
    ((startsWith (trim (str "[user, group#member] or owner")) (str "[") &&
        endsWith (trim (str "[user, group#member] or owner")) (str "]")) = false) ∧
    topLevelHas orOp (trim (str "[user, group#member] or owner")) = true ∧
    parseRelationDefinition 5 (str "[user, group#member] or owner") =
      (mapMOption (parseRelationDefinition 4)
          (splitByOperator orOp (trim (str "[user, group#member] or owner")))).bind
        (fun cs => some (usUnion cs)) :=
  ⟨by decide, by decide,
    parseRelationDefinition_topLevelOr 4 (str "[user, group#member] or owner")
      (by decide) (by decide)⟩

/-- A DSL document whose single relation is
`define viewer: [user, group#member] or owner`. -/
def bracketUnionDsl : List Char :=
  str "model\n  schema 1.1\ntype doc\n  relations\n    define viewer: [user, group#member] or owner\n"

/-- The model `bracketUnionDsl` parses to: `viewer` is a union of exactly two
children (a direct assignment and a computed reference to `owner`), and its
metadata carries both `RelationReference`s (plain `user`, sub-relation
`group#member`). -/
def mBracketUnion : AuthorizationModelNoId :=
  { schema_version := str "1.1",
    type_definitions := [
      { type := str "doc",
        relations := some [(str "viewer", usUnion [usThis, usComputed (str "owner")])],
        metadata := some ⟨some [
          (str "viewer", ⟨some [userRef,
            { type := str "group", relation := some (str "member"), wildcard := false,
              condition := none }]⟩)]⟩ }],
    conditions := none }

/-- C5: `[user, group#member] or owner` in a define line parses to a union of
exactly two children — a direct assignment whose metadata carries both
relation references, and a computed reference to `owner`; the comma inside
the brackets is never treated as an or-split point. -/
theorem parseDSL_bracketUnion : parseDSL 10 bracketUnionDsl = some mBracketUnion := rfl

/-- C6: the §8 scenario input parses to schema `1.1` and exactly the two type
definitions of `mDoc` in order (`user` with no relations; `document` with
`owner` direct-with-`["user"]` and `viewer` a union of a direct assignment
and `computed("owner")`). -/
theorem parseDSL_scenario : parseDSL 10 docDsl = some mDoc := rfl

/-- A `valLine` step on a line that does not trim to `model` leaves
`hasModel` unset. -/
theorem valLine_hasModel_of_ne (s : ValState) (i : Nat) (l : List Char)
    (h : trim l ≠ str "model") (h0 : s.hasModel = false) :
    (valLine s i l).hasModel = false := by
  have hc2 : (trim l == str "model") = false := by
    simpa using h
  simp only [valLine, apply_ite ValState.hasModel]
  simp [hc2, h0]

/-- A validator scan over lines none of which trims to `model` leaves
`hasModel` unset. -/
theorem valScan_hasModel_of_ne :
    ∀ (lines : List (List Char)) (i : Nat) (s : ValState),
      (∀ l ∈ lines, trim l ≠ str "model") → s.hasModel = false →
      (valScan s i lines).hasModel = false := by
  intro lines
  induction lines with
  | nil => intro i s _ h0; exact h0
  | cons l ls ih =>
    intro i s hl h0
    rw [valScan]
    exact ih (i + 1) _ (fun x hx => hl x (List.mem_cons_of_mem _ hx))
      (valLine_hasModel_of_ne s i l (hl l (List.mem_cons_self _ _)) h0)

/-- C7 amended: for every non-blank editor text in which no line TRIMS to
exactly `model`, the validator output starts with the line-1
missing-model-declaration diagnostic (in particular it is non-empty). -/
theorem dslErrors_missing_model_first (text : List Char) (hne : trim text ≠ [])
    (hml : ∀ l ∈ splitOnSep (str "\n") text, trim l ≠ str "model") :
    ∃ rest, dslErrors text = missingModelDiag :: rest := by
  have hM := valScan_hasModel_of_ne (splitOnSep (str "\n") text) 0
    ⟨[], false, false, none, false⟩ hml rfl
  have hne' : (trim text).isEmpty = false := by
    simpa [List.isEmpty_iff] using hne
  refine ⟨(valScan ⟨[], false, false, none, false⟩ 0 (splitOnSep (str "\n") text)).errors, ?_⟩
  simp [dslErrors, hne', hM]

/-- Closed instance of `dslErrors_missing_model_first` at the text `type t`. -/
theorem dslErrors_missing_model_first_witness :
    trim (str "type t") ≠ [] ∧
    (∀ l ∈ splitOnSep (str "\n") (str "type t"), trim l ≠ str "model") ∧
    (∃ rest, dslErrors (str "type t") = missingModelDiag :: rest) :=
  ⟨by decide, by decide,
    dslErrors_missing_model_first (str "type t") (by decide) (by decide)⟩

/-- C7 counterexample: the text `'  model'` is non-blank and none of its lines
is EXACTLY `model` (the single line carries leading spaces), yet the
validator's only diagnostic is the line-2 missing-schema message — the first
diagnostic is neither at line 1 nor about the model declaration, because the
validator compares the TRIMMED line against `model`. -/
theorem dslErrors_missing_model_exact_refuted :
    trim (str "  model") ≠ [] ∧
    (∀ l ∈ splitOnSep (str "\n") (str "  model"), l ≠ str "model") ∧
    dslErrors (str "  model") = [missingSchemaDiag] :=
  ⟨by decide, by decide, by decide⟩

/-- The §8 condition text written as ONE line, exactly as the claim quotes
it. -/
def conditionOneLine : List Char :=
  str "condition valid_time(current: string, expiry: string) \x7b current < expiry \x7d"

/-- The same condition in the multi-line layout the serializer emits (header
line, body line, closing brace line). -/
def conditionMultiLine : List Char :=
  str "condition valid_time(current: string, expiry: string) \x7b\n  current < expiry\n\x7d"

/-- C8 counterexample: the one-line condition text parses to a model with NO
conditions at all — the condition-declaration regex is anchored at
end-of-line after the optional `{`, so a `{ expression }` on the same line
never matches, and the line is silently dropped. -/
theorem parseDSL_condition_oneLine_refuted :
    (parseDSL 5 conditionOneLine).map AuthorizationModelNoId.conditions = some none := by
  decide

/-- C8 amended: in the multi-line layout (the layout the serializer itself
produces), the condition parses to a Condition named `valid_time` with
expression `current < expiry` and the two ordered `string` parameters, and
the model re-serializes with the identical condition block. -/
theorem parseDSL_condition_multiLine_roundtrip :
    (parseDSL 5 conditionMultiLine).map AuthorizationModelNoId.conditions =
      some (some [(str "valid_time",
        { name := str "valid_time", expression := str "current < expiry",
          parameters := some [(str "current", ⟨str "string"⟩),
                              (str "expiry", ⟨str "string"⟩)] })]) ∧
    (parseDSL 5 conditionMultiLine).map modelToDSLForEdit =
      some (str "model\n  schema 1.1\n\ncondition valid_time(current: string, expiry: string) \x7b\n  current < expiry\n\x7d\n") := by
  exact ⟨by decide, by decide⟩

/-- Does a `Userset` node populate none of the six known variants? -/
def noVariant : Userset → Bool
  | .mk t c tt un i d => !t && c.isNone && tt.isNone && un.isNone && i.isNone && d.isNone

/-- C9: both serializers are total functions (they are plain Lean functions
on `Userset`), and a node populating none of the six variants renders via the
default fallbacks: `[unknown]` in display mode, and the bracket list — or
`[user]` when no metadata is given — in edit mode. -/
theorem serializers_fallback (u : Userset) (td : TypeDefinition) (rn : List Char)
    (dts : List RelationReference) (h : noVariant u = true) :
    usersetToString u td rn = str "[unknown]" ∧
    buildRelationDefinition u dts =
      (if dts.isEmpty then str "[user]"
       else str "[" ++ joinWith (str ", ") (dts.map formatTypeRef) ++ str "]") := by
  obtain ⟨t, c, tt, un, i, d⟩ := u
  simp only [noVariant, Bool.and_eq_true, Bool.not_eq_true', Option.isNone_iff_eq_none,
    and_assoc] at h
  obtain ⟨ht, hc, htt, hun, hi, hd⟩ := h
  subst ht hc htt hun hi hd
  refine ⟨rfl, ?_⟩
  by_cases hdts : dts.isEmpty
  · simp [buildRelationDefinition, hdts]
  · simp only [buildRelationDefinition, hdts]
    simp [str]

/-- Closed instance of `serializers_fallback` at the empty userset object with
no metadata. -/
theorem serializers_fallback_witness :
    noVariant usEmpty = true ∧
    (usersetToString usEmpty ⟨[], none, none⟩ [] = str "[unknown]" ∧
     buildRelationDefinition usEmpty [] =
       (if List.isEmpty ([] : List RelationReference) then str "[user]"
        else str "[" ++ joinWith (str ", ")
          (List.map formatTypeRef ([] : List RelationReference)) ++ str "]")) :=
  ⟨by decide, serializers_fallback usEmpty ⟨[], none, none⟩ [] [] (by decide)⟩

/-- A successful `dropLit` against a non-empty literal determines the head
character of the scanned string. -/
theorem dropLit_cons_head (t : List Char) (p : Char) (ps r : List Char)
    (h : dropLit t (p :: ps) = some r) : ∃ t', t = p :: t' := by
  cases t with
  | nil => simp [dropLit] at h
  | cons c t' =>
    simp only [dropLit] at h
    split at h
    · next hc => exact ⟨t', by rw [eq_of_beq hc]⟩
    · simp at h

/-- Applying `dropLit` against a literal with a different head character fails. -/
theorem dropLit_head_ne (c : Char) (t' : List Char) (p : Char) (ps : List Char)
    (h : (c == p) = false) : dropLit (c :: t') (p :: ps) = none := by
  simp [dropLit, h]

/-- A line matched by the `define` regex starts with `d`. -/
theorem matchDefine_head (t : List Char) (p : List Char × List Char)
    (h : matchDefine t = some p) : ∃ t', t = 'd' :: t' := by
  unfold matchDefine at h
  cases hdl : dropLit t (str "define") with
  | none => rw [hdl] at h; simp at h
  | some r =>
    rw [show str "define" = 'd' :: str "efine" from rfl] at hdl
    exact dropLit_cons_head t 'd' (str "efine") r hdl

/-- The `schema` regex fails on a string whose head is not `s`. -/
theorem matchSchema_ne_head (c : Char) (t' : List Char) (h : (c == 's') = false) :
    matchSchema (c :: t') = none := by
  unfold matchSchema
  rw [show str "schema" = 's' :: str "chema" from rfl, dropLit_head_ne c t' 's' _ h]
  rfl

/-- The `type` regex fails on a string whose head is not `t`. -/
theorem matchType_ne_head (c : Char) (t' : List Char) (h : (c == 't') = false) :
    matchType (c :: t') = none := by
  unfold matchType
  rw [show str "type" = 't' :: str "ype" from rfl, dropLit_head_ne c t' 't' _ h]
  rfl

/-- The `condition` regex fails on a string whose head is not `c`. -/
theorem matchCondition_ne_head (c : Char) (t' : List Char) (h : (c == 'c') = false) :
    matchCondition (c :: t') = none := by
  unfold matchCondition
  rw [show str "condition" = 'c' :: str "ondition" from rfl, dropLit_head_ne c t' 'c' _ h]
  rfl

/-- The tail of the loop body is the identity when the line is not a
condition header and no condition body is open. -/
theorem pLineTail_stray (s : PState) (t : List Char)
    (hmc : matchCondition t = none) (hcond : s.inCondition = false) :
    pLineTail s t = s := by
  simp [pLineTail, hmc, hcond]

/-- A define-shaped line processed while no type is open or the relations
flag is unset, and no condition body is open, leaves the parse state
unchanged. -/
theorem pLine_stray_define (s : PState) (line : List Char)
    (hdef : (matchDefine (trim line)).isSome = true)
    (hguard : s.currentType = none ∨ s.inRelations = false)
    (hcond : s.inCondition = false) :
    pLine s line = s := by
  obtain ⟨⟨rname, defRaw⟩, hp⟩ := Option.isSome_iff_exists.1 hdef
  obtain ⟨t', ht⟩ := matchDefine_head _ _ hp
  rw [ht] at hp
  have hskip : (List.isEmpty ('d' :: t') || startsWith ('d' :: t') (str "#") ||
      startsWith ('d' :: t') (str "//")) = false := by
    rw [show str "#" = ['#'] from rfl, show str "//" = ['/', '/'] from rfl]
    simp [startsWith, List.isEmpty, show ('d' == '#') = false from by decide,
      show ('d' == '/') = false from by decide]
  have hmodel : (('d' :: t') == str "model") = false := by
    refine beq_eq_false_iff_ne.mpr ?_
    intro hEq
    rw [show str "model" = 'm' :: str "odel" from rfl] at hEq
    injection hEq with h1 _
    exact absurd h1 (by decide)
  have hrel : (('d' :: t') == str "relations") = false := by
    refine beq_eq_false_iff_ne.mpr ?_
    intro hEq
    rw [show str "relations" = 'r' :: str "elations" from rfl] at hEq
    injection hEq with h1 _
    exact absurd h1 (by decide)
  have hms : matchSchema ('d' :: t') = none := matchSchema_ne_head 'd' t' (by decide)
  have hmt : matchType ('d' :: t') = none := matchType_ne_head 'd' t' (by decide)
  have hmc : matchCondition ('d' :: t') = none := matchCondition_ne_head 'd' t' (by decide)
  have htail : pLineTail s ('d' :: t') = s := pLineTail_stray s _ hmc hcond
  simp only [pLine, ht, hskip, hmodel, hms, hmt, hrel, hp]
  rcases hguard with hg | hg
  · simp [hg, htail]
  · cases hct : s.currentType with
    | none => simp [hct, htail]
    | some ct => simp [hct, hg, htail]

/-- C10 amended: a `define` line processed while no type is open or no
`relations` line has been seen, and while no condition body is open, is
silently ignored — the scan of the remaining lines proceeds exactly as if the
line were absent. -/
theorem pScan_stray_define (s : PState) (line : List Char) (rest : List (List Char))
    (hdef : (matchDefine (trim line)).isSome = true)
    (hguard : s.currentType = none ∨ s.inRelations = false)
    (hcond : s.inCondition = false) :
    pScan s (line :: rest) = pScan s rest := by
  rw [pScan, pLine_stray_define s line hdef hguard hcond]

/-- Closed instance of `pScan_stray_define`: a `define` line before any
`type` line is dropped from the scan. -/
theorem pScan_stray_define_witness :
    (matchDefine (trim (str "define v: y"))).isSome = true ∧
    (initPState.currentType = none ∨ initPState.inRelations = false) ∧
    initPState.inCondition = false ∧
    pScan initPState [str "define v: y", str "type t"] =
      pScan initPState [str "type t"] :=
  ⟨by decide, Or.inl rfl, rfl,
    pScan_stray_define initPState (str "define v: y") [str "type t"]
      (by decide) (Or.inl rfl) rfl⟩

/-- DSL text with a stray `define` line inside a condition body (before any
`type` line). -/
def strayDefineInCondition : List Char := str "condition c(x: string) \x7b\ndefine v: y\n\x7d"

/-- The same text with the stray `define` line removed. -/
def strayDefineRemoved : List Char := str "condition c(x: string) \x7b\n\x7d"

/-- C10 counterexample: a `define` line occurring before any `type` line is
NOT always ignored — inside a condition body it is captured as condition-body
text, so the parse differs from the parse with the line absent (the condition
`c` gets expression `define v: y` instead of the empty expression). -/
theorem parseDSL_stray_define_in_condition_refuted :
    (parseDSL 5 strayDefineInCondition).map AuthorizationModelNoId.conditions ≠
      (parseDSL 5 strayDefineRemoved).map AuthorizationModelNoId.conditions := by
  decide

end OpenFGAUI
